import Mathlib

set_option maxRecDepth 40000

/-!
Shallow embedding of the `vf2-header` tool (`src/main.rs`).

The tool has one data structure, `UBootSPLHeader`, a fixed 1024-byte
little-endian header, and two operations:

* `write_spl_hdr` ("create" mode): reads a payload file, checks its size
  against a maximum of `181072 - 1024 + 1 = 180049` bytes (after truncating
  the file length to `u32`), fills a fresh header with the payload length
  and its CRC-32/ISO-HDLC checksum, and writes `serialize(header) ++ payload`
  to a new file named `<input>.normal.out`;
* `write_img_hdr` ("patch" mode): reads the first 1024 bytes of a target
  file into a zero-initialised buffer, deserialises them, overwrites
  `bofs` when the supplied backup offset is nonzero, sets `crcs` to the
  sentinel `0x5A5A5A5A`, and writes the re-serialised header back at
  offset 0.

Bytes are modelled as `Nat` (< 256 in well-formed data), `u32` fields as
`Nat` (< 2^32), and files as lists of bytes.  A tiny association-list
filesystem carries the file-naming behaviour of create mode.
-/

/-- The Rust struct `UBootSPLHeader` (field names and order as declared).
`u32` fields are natural numbers below `2^32`; the reserved arrays
`zro2 : [u8; 636]` and `zro3 : [u8; 364]` are byte lists. -/
structure UBootSPLHeader where
  sofs : Nat
  bofs : Nat
  zro2 : List Nat
  vers : Nat
  fsiz : Nat
  res1 : Nat
  crcs : Nat
  zro3 : List Nat
  deriving Repr, DecidableEq

/-- Little-endian byte decomposition of a `u32`, as bincode emits it. -/
def u32le (n : Nat) : List Nat :=
  [n % 256, n / 256 % 256, n / 65536 % 256, n / 16777216 % 256]

/-- bincode serialisation of `UBootSPLHeader`: fields in declaration
order, `u32` as 4 little-endian bytes, byte arrays raw (no length
prefix, no padding). -/
def serialize (h : UBootSPLHeader) : List Nat :=
  u32le h.sofs ++ u32le h.bofs ++ h.zro2 ++
    u32le h.vers ++ u32le h.fsiz ++ u32le h.res1 ++ u32le h.crcs ++ h.zro3

/-- Well-formedness: every field holds a value representable in the Rust
type (`u32` below `2^32`; byte arrays of the declared length with bytes
below 256).  Every possible bit pattern of the Rust struct corresponds to
exactly one well-formed value. -/
def hdrWF (h : UBootSPLHeader) : Prop :=
  h.sofs < 2 ^ 32 ∧ h.bofs < 2 ^ 32 ∧
    h.zro2.length = 636 ∧ (∀ b ∈ h.zro2, b < 256) ∧
    h.vers < 2 ^ 32 ∧ h.fsiz < 2 ^ 32 ∧ h.res1 < 2 ^ 32 ∧ h.crcs < 2 ^ 32 ∧
    h.zro3.length = 364 ∧ (∀ b ∈ h.zro3, b < 256)

instance (h : UBootSPLHeader) : Decidable (hdrWF h) := by
  unfold hdrWF; infer_instance

/-- Read one little-endian `u32` (4 bytes) from the front of a byte list,
as bincode's deserialiser does; fails when fewer than 4 bytes remain. -/
def readU32 : List Nat → Option (Nat × List Nat)
  | b0 :: b1 :: b2 :: b3 :: rest =>
      some (b0 + 256 * b1 + 65536 * b2 + 16777216 * b3, rest)
  | _ => none

/-- Read a raw byte array of length `n`; fails when fewer bytes remain. -/
def readBytes (n : Nat) (l : List Nat) : Option (List Nat × List Nat) :=
  if n ≤ l.length then some (l.take n, l.drop n) else none

/-- bincode deserialisation of `UBootSPLHeader`: reads the fields in
declaration order and fails (as `bincode::deserialize`'s `Err` does) when
fewer than 1024 bytes are supplied.  No field values are validated. -/
def deserialize (l : List Nat) : Option UBootSPLHeader := do
  let (sofs, l) ← readU32 l
  let (bofs, l) ← readU32 l
  let (zro2, l) ← readBytes 636 l
  let (vers, l) ← readU32 l
  let (fsiz, l) ← readU32 l
  let (res1, l) ← readU32 l
  let (crcs, l) ← readU32 l
  let (zro3, _) ← readBytes 364 l
  pure ⟨sofs, bofs, zro2, vers, fsiz, res1, crcs, zro3⟩

/-- One bit step of the reflected CRC-32 with polynomial `0xEDB88320`
(the reflected form of `0x04C11DB7` used by CRC-32/ISO-HDLC). -/
def crcStep (c : Nat) : Nat :=
  if c % 2 = 1 then (c / 2) ^^^ 0xEDB88320 else c / 2

/-- Feed one byte into the running CRC state. -/
def crcByte (c b : Nat) : Nat := crcStep^[8] (c ^^^ b % 256)

/-- CRC-32/ISO-HDLC of a byte sequence: reflected algorithm, initial
value `0xFFFFFFFF`, final XOR `0xFFFFFFFF` — the parameterisation of
`CRC_32_ISO_HDLC` in the `crc` crate used by `write_spl_hdr`. -/
def crc32 (l : List Nat) : Nat :=
  (l.foldl crcByte 0xFFFFFFFF) ^^^ 0xFFFFFFFF

/-- Header construction `UBootSPLHeader::new()`: `sofs = 0x240`,
`res1 = 0x400`, reserved
arrays zeroed, every other field zero. -/
def splHdrNew : UBootSPLHeader :=
  { sofs := 0x240, bofs := 0, zro2 := List.replicate 636 0,
    vers := 0, fsiz := 0, res1 := 0x400, crcs := 0,
    zro3 := List.replicate 364 0 }

/-- The sentinel written into `crcs` by patch mode (`CRC_FAILED`). -/
def CRC_FAILED : Nat := 0x5A5A5A5A

/-- The maximum payload size accepted by `write_spl_hdr`:
`(181072 - size_of::<UBootSPLHeader>() + 1)` with the struct 1024 bytes. -/
def maxSize : Nat := 181072 - 1024 + 1

/-- The relevant fields of `HeaderConf` for the file operations. -/
structure HeaderConf where
  name : String
  vers : Nat
  bofs : Nat

/-- Look a file up by name. -/
def fsLookup : List (String × List Nat) → String → Option (List Nat)
  | [], _ => none
  | (n, v) :: t, k => if n = k then some v else fsLookup t k

/-- Create/overwrite a file (as `File::create` followed by writes). -/
def fsSet : List (String × List Nat) → String → List Nat → List (String × List Nat)
  | [], k, v => [(k, v)]
  | (n, w) :: t, k, v => if n = k then (k, v) :: t else (n, w) :: fsSet t k v

/-- Errors `write_spl_hdr` can abort with (`unwrap`/`panic!`). -/
inductive SplErr where
  | fileNotFound
  | payloadTooLarge (actual max : Nat)
  deriving Repr, DecidableEq

/-- The create operation `write_spl_hdr`, following the source statement by
statement: open the
input (abort when missing), truncate its length to `u32`, compare with
`maxSize` and abort with the "File too large" panic on excess — only then
create `<name>.normal.out` and write the serialised header followed by
the unmodified payload.  Returns the abort reason (if any) together with
the filesystem after the operation. -/
def write_spl_hdr (conf : HeaderConf) (fs : List (String × List Nat)) :
    Option SplErr × List (String × List Nat) :=
  match fsLookup fs conf.name with
  | none => (some .fileNotFound, fs)
  | some payload =>
    let fSize := payload.length % 2 ^ 32
    if maxSize < fSize then
      (some (.payloadTooLarge fSize maxSize), fs)
    else
      let hdr := { splHdrNew with
                     bofs := conf.bofs, vers := conf.vers,
                     fsiz := fSize, crcs := crc32 payload }
      (none, fsSet fs (conf.name ++ ".normal.out") (serialize hdr ++ payload))

/-- The 1024-byte read buffer of `write_img_hdr`: `vec![0u8; 1024]` whose
prefix is filled by `file.read` with however many bytes the file holds
(the result of `read` is discarded, so a short file leaves the zero tail
in place). -/
def readInto1024 (content : List Nat) : List Nat :=
  content.take 1024 ++ List.replicate (1024 - content.length) 0

/-- The patch operation `write_img_hdr` on the content of the target file:
read the first
1024 bytes into a zeroed buffer, deserialise (`none` models the `unwrap`
panic, which in fact never fires since the buffer is always 1024 bytes
long), overwrite `bofs` exactly when the supplied offset is nonzero, set
`crcs` to the sentinel, seek to 0 and overwrite the first 1024 bytes with
the re-serialised header. -/
def write_img_hdr (bofs : Nat) (content : List Nat) : Option (List Nat) :=
  match deserialize (readInto1024 content) with
  | none => none
  | some h =>
    let h := if bofs ≠ 0 then { h with bofs := bofs } else h
    let h := { h with crcs := CRC_FAILED }
    some (serialize h ++ content.drop 1024)

/-! ### Helper lemmas -/

theorem u32le_length (n : Nat) : (u32le n).length = 4 := rfl

theorem readU32_u32le_append (n : Nat) (rest : List Nat) (h : n < 2 ^ 32) :
    readU32 (u32le n ++ rest) = some (n, rest) := by
  simp only [u32le, List.cons_append, List.nil_append, readU32,
    Option.some.injEq, Prod.mk.injEq]
  exact ⟨by omega, trivial⟩

theorem readBytes_append (n : Nat) (l rest : List Nat) (h : l.length = n) :
    readBytes n (l ++ rest) = some (l, rest) := by
  unfold readBytes
  rw [if_pos (by simp only [List.length_append]; omega)]
  rw [List.take_left' h, List.drop_left' h]

/-- Deserialising a serialised well-formed header (with arbitrary trailing
bytes, which bincode's `deserialize` ignores) recovers the header. -/
theorem deserialize_serialize_append (h : UBootSPLHeader) (rest : List Nat)
    (hw : hdrWF h) : deserialize (serialize h ++ rest) = some h := by
  obtain ⟨c1, c2, c3, _, c5, c6, c7, c8, c9, _⟩ := hw
  obtain ⟨sofs, bofs, zro2, vers, fsiz, res1, crcs, zro3⟩ := h
  simp only at c1 c2 c3 c5 c6 c7 c8 c9
  simp [deserialize, serialize, List.append_assoc,
    readU32_u32le_append _ _ c1, readU32_u32le_append _ _ c2,
    readBytes_append _ _ _ c3, readU32_u32le_append _ _ c5,
    readU32_u32le_append _ _ c6, readU32_u32le_append _ _ c7,
    readU32_u32le_append _ _ c8, readBytes_append _ _ _ c9]

theorem serialize_length (h : UBootSPLHeader)
    (h2 : h.zro2.length = 636) (h3 : h.zro3.length = 364) :
    (serialize h).length = 1024 := by
  simp [serialize, u32le, h2, h3]

theorem readU32_inv (l : List Nat) (v : Nat) (rest : List Nat)
    (hl : ∀ b ∈ l, b < 256) (he : readU32 l = some (v, rest)) :
    v < 2 ^ 32 ∧ ∀ b ∈ rest, b < 256 := by
  match l with
  | [] | [_] | [_, _] | [_, _, _] => simp [readU32] at he
  | b0 :: b1 :: b2 :: b3 :: t =>
    simp only [readU32, Option.some.injEq, Prod.mk.injEq] at he
    obtain ⟨hv, hr⟩ := he
    have h0 := hl b0 (by simp)
    have h1 := hl b1 (by simp)
    have h2 := hl b2 (by simp)
    have h3 := hl b3 (by simp)
    subst hv hr
    exact ⟨by omega, fun b hb => hl b (by simp [hb])⟩

theorem readBytes_inv (n : Nat) (l bs rest : List Nat)
    (hl : ∀ b ∈ l, b < 256) (he : readBytes n l = some (bs, rest)) :
    bs.length = n ∧ (∀ b ∈ bs, b < 256) ∧ (∀ b ∈ rest, b < 256) := by
  unfold readBytes at he
  split at he
  · next hn =>
    simp only [Option.some.injEq, Prod.mk.injEq] at he
    obtain ⟨h1, h2⟩ := he
    subst h1 h2
    refine ⟨by simp [Nat.min_eq_left hn], ?_, ?_⟩
    · exact fun b hb => hl b (List.take_subset n l hb)
    · exact fun b hb => hl b (List.drop_subset n l hb)
  · exact absurd he (by simp)

/-- Any header produced by `deserialize` from a byte-valid input is
well-formed. -/
theorem deserialize_wf (l : List Nat) (h : UBootSPLHeader)
    (hl : ∀ b ∈ l, b < 256) (he : deserialize l = some h) : hdrWF h := by
  simp only [deserialize, bind, Option.bind_eq_some, pure, Option.some.injEq] at he
  obtain ⟨⟨sofs, l1⟩, e1, he⟩ := he
  obtain ⟨⟨bofs, l2⟩, e2, he⟩ := he
  obtain ⟨⟨zro2, l3⟩, e3, he⟩ := he
  obtain ⟨⟨vers, l4⟩, e4, he⟩ := he
  obtain ⟨⟨fsiz, l5⟩, e5, he⟩ := he
  obtain ⟨⟨res1, l6⟩, e6, he⟩ := he
  obtain ⟨⟨crcs, l7⟩, e7, he⟩ := he
  obtain ⟨⟨zro3, l8⟩, e8, he⟩ := he
  obtain ⟨w1, hl1⟩ := readU32_inv _ _ _ hl e1
  obtain ⟨w2, hl2⟩ := readU32_inv _ _ _ hl1 e2
  obtain ⟨w3, hb3, hl3⟩ := readBytes_inv _ _ _ _ hl2 e3
  obtain ⟨w4, hl4⟩ := readU32_inv _ _ _ hl3 e4
  obtain ⟨w5, hl5⟩ := readU32_inv _ _ _ hl4 e5
  obtain ⟨w6, hl6⟩ := readU32_inv _ _ _ hl5 e6
  obtain ⟨w7, hl7⟩ := readU32_inv _ _ _ hl6 e7
  obtain ⟨w8, hb8, _⟩ := readBytes_inv _ _ _ _ hl7 e8
  subst he
  exact ⟨w1, w2, w3, hb3, w4, w5, w6, w7, w8, hb8⟩

theorem readU32_total (l : List Nat) (h : 4 ≤ l.length) :
    ∃ v rest, readU32 l = some (v, rest) ∧ rest.length = l.length - 4 := by
  match l with
  | [] | [_] | [_, _] | [_, _, _] => simp at h
  | b0 :: b1 :: b2 :: b3 :: t =>
    exact ⟨_, t, rfl, by simp⟩

theorem readBytes_total (n : Nat) (l : List Nat) (h : n ≤ l.length) :
    ∃ bs rest, readBytes n l = some (bs, rest) ∧
      bs.length = n ∧ rest.length = l.length - n := by
  refine ⟨l.take n, l.drop n, ?_, ?_, by simp⟩
  · unfold readBytes; rw [if_pos h]
  · simp [Nat.min_eq_left h]

/-- Deserialisation succeeds on every byte list of length at least 1024
(as `bincode::deserialize` does, trailing bytes being allowed). -/
theorem deserialize_total (l : List Nat) (hl : 1024 ≤ l.length) :
    ∃ h, deserialize l = some h := by
  obtain ⟨v1, l1, e1, n1⟩ := readU32_total l (by omega)
  obtain ⟨v2, l2, e2, n2⟩ := readU32_total l1 (by omega)
  obtain ⟨b3, l3, e3, m3, n3⟩ := readBytes_total 636 l2 (by omega)
  obtain ⟨v4, l4, e4, n4⟩ := readU32_total l3 (by omega)
  obtain ⟨v5, l5, e5, n5⟩ := readU32_total l4 (by omega)
  obtain ⟨v6, l6, e6, n6⟩ := readU32_total l5 (by omega)
  obtain ⟨v7, l7, e7, n7⟩ := readU32_total l6 (by omega)
  obtain ⟨b8, l8, e8, m8, n8⟩ := readBytes_total 364 l7 (by omega)
  exact ⟨⟨v1, v2, b3, v4, v5, v6, v7, b8⟩,
    by simp [deserialize, e1, e2, e3, e4, e5, e6, e7, e8]⟩

theorem readInto1024_length (content : List Nat) :
    (readInto1024 content).length = 1024 := by
  simp [readInto1024]
  omega

theorem readInto1024_bytes (content : List Nat)
    (hb : ∀ b ∈ content, b < 256) : ∀ b ∈ readInto1024 content, b < 256 := by
  intro b hbm
  rcases List.mem_append.1 hbm with h | h
  · exact hb b (List.take_subset _ _ h)
  · rw [List.eq_of_mem_replicate h]; norm_num

/-- When the target file holds at least 1024 bytes, the read buffer is
exactly the first 1024 bytes of the file. -/
theorem readInto1024_of_length (content : List Nat)
    (hl : 1024 ≤ content.length) :
    readInto1024 content = content.take 1024 := by
  simp [readInto1024, Nat.sub_eq_zero_of_le hl]

theorem hdrWF_update (h : UBootSPLHeader) (hw : hdrWF h) (b c : Nat)
    (hbl : b < 2 ^ 32) (hcl : c < 2 ^ 32) :
    hdrWF { h with bofs := b, crcs := c } := by
  obtain ⟨w1, _, w3, w4, w5, w6, w7, _, w9, w10⟩ := hw
  exact ⟨w1, hbl, w3, w4, w5, w6, w7, hcl, w9, w10⟩

/-- Closed form of `write_img_hdr` given the deserialised header of the
read buffer: the result is the patched header (backup offset overwritten
exactly when the argument is nonzero, CRC set to the sentinel) followed
by the bytes of the file beyond offset 1024. -/
theorem write_img_hdr_eq (a : Nat) (content : List Nat) (h : UBootSPLHeader)
    (he : deserialize (readInto1024 content) = some h) :
    write_img_hdr a content =
      some (serialize { h with bofs := (if a = 0 then h.bofs else a),
                               crcs := CRC_FAILED } ++ content.drop 1024) := by
  unfold write_img_hdr
  rw [he]
  by_cases ha : a = 0 <;> simp [ha]

theorem fsLookup_fsSet_self (fs : List (String × List Nat)) (k : String)
    (v : List Nat) : fsLookup (fsSet fs k v) k = some v := by
  induction fs with
  | nil => simp [fsSet, fsLookup]
  | cons p t ih =>
    obtain ⟨n, w⟩ := p
    by_cases hn : n = k <;> simp [fsSet, fsLookup, hn, ih]

/-! ### Claims -/

/-- C2: for every header value `h` whose fields fit the declared Rust
types (every possible bit pattern in every field — `deserialize`
validates nothing), `deserialize (serialize h) = h` field-for-field. -/
theorem claim_C2_roundtrip (h : UBootSPLHeader) (hw : hdrWF h) :
    deserialize (serialize h) = some h := by
  have := deserialize_serialize_append h [] hw
  simpa using this

theorem claim_C2_roundtrip_witness :
    hdrWF ⟨0x240, 0x100000, List.replicate 636 7, 0x01010101, 3, 0x400,
           0x55BC801D, List.replicate 364 9⟩ ∧
    deserialize (serialize ⟨0x240, 0x100000, List.replicate 636 7, 0x01010101,
        3, 0x400, 0x55BC801D, List.replicate 364 9⟩) =
      some ⟨0x240, 0x100000, List.replicate 636 7, 0x01010101, 3, 0x400,
            0x55BC801D, List.replicate 364 9⟩ :=
  ⟨by decide, claim_C2_roundtrip _ (by decide)⟩

/-- C3: for every header value, `serialize` produces exactly 1024 bytes,
laid out in the declared field order as little-endian 32-bit integers and
raw reserved byte arrays (4 + 4 + 636 + 4 + 4 + 4 + 4 + 364 bytes), with
no length prefixes or padding: each field sits at the offset given by the
sum of the sizes of the fields before it. -/
theorem claim_C3_fixed_layout (h : UBootSPLHeader)
    (h2 : h.zro2.length = 636) (h3 : h.zro3.length = 364) :
    (serialize h).length = 1024 ∧
    (serialize h).take 4 = u32le h.sofs ∧
    ((serialize h).drop 4).take 4 = u32le h.bofs ∧
    ((serialize h).drop 8).take 636 = h.zro2 ∧
    ((serialize h).drop 644).take 4 = u32le h.vers ∧
    ((serialize h).drop 648).take 4 = u32le h.fsiz ∧
    ((serialize h).drop 652).take 4 = u32le h.res1 ∧
    ((serialize h).drop 656).take 4 = u32le h.crcs ∧
    (serialize h).drop 660 = h.zro3 := by
  have e0 : serialize h = u32le h.sofs ++ (u32le h.bofs ++ (h.zro2 ++
      (u32le h.vers ++ (u32le h.fsiz ++ (u32le h.res1 ++
        (u32le h.crcs ++ h.zro3)))))) := by
    simp [serialize, List.append_assoc]
  have d4 : (serialize h).drop 4 = u32le h.bofs ++ (h.zro2 ++
      (u32le h.vers ++ (u32le h.fsiz ++ (u32le h.res1 ++
        (u32le h.crcs ++ h.zro3))))) := by
    rw [e0, List.drop_left' (u32le_length _)]
  have d8 : (serialize h).drop 8 = h.zro2 ++ (u32le h.vers ++
      (u32le h.fsiz ++ (u32le h.res1 ++ (u32le h.crcs ++ h.zro3)))) := by
    rw [show (8 : Nat) = 4 + 4 from rfl, ← List.drop_drop, d4,
      List.drop_left' (u32le_length _)]
  have d644 : (serialize h).drop 644 = u32le h.vers ++
      (u32le h.fsiz ++ (u32le h.res1 ++ (u32le h.crcs ++ h.zro3))) := by
    rw [show (644 : Nat) = 8 + 636 from rfl, ← List.drop_drop, d8,
      List.drop_left' h2]
  have d648 : (serialize h).drop 648 = u32le h.fsiz ++
      (u32le h.res1 ++ (u32le h.crcs ++ h.zro3)) := by
    rw [show (648 : Nat) = 644 + 4 from rfl, ← List.drop_drop, d644,
      List.drop_left' (u32le_length _)]
  have d652 : (serialize h).drop 652 = u32le h.res1 ++
      (u32le h.crcs ++ h.zro3) := by
    rw [show (652 : Nat) = 648 + 4 from rfl, ← List.drop_drop, d648,
      List.drop_left' (u32le_length _)]
  have d656 : (serialize h).drop 656 = u32le h.crcs ++ h.zro3 := by
    rw [show (656 : Nat) = 652 + 4 from rfl, ← List.drop_drop, d652,
      List.drop_left' (u32le_length _)]
  have d660 : (serialize h).drop 660 = h.zro3 := by
    rw [show (660 : Nat) = 656 + 4 from rfl, ← List.drop_drop, d656,
      List.drop_left' (u32le_length _)]
  refine ⟨serialize_length h h2 h3, ?_, ?_, ?_, ?_, ?_, ?_, ?_, d660⟩
  · rw [e0, List.take_left' (u32le_length _)]
  · rw [d4, List.take_left' (u32le_length _)]
  · rw [d8, List.take_left' h2]
  · rw [d644, List.take_left' (u32le_length _)]
  · rw [d648, List.take_left' (u32le_length _)]
  · rw [d652, List.take_left' (u32le_length _)]
  · rw [d656, List.take_left' (u32le_length _)]

theorem claim_C3_fixed_layout_witness :
    (List.replicate 636 3 : List Nat).length = 636 ∧
    (List.replicate 364 8 : List Nat).length = 364 ∧
    ((serialize ⟨1, 2, List.replicate 636 3, 4, 5, 6, 7,
        List.replicate 364 8⟩).length = 1024 ∧
      (serialize ⟨1, 2, List.replicate 636 3, 4, 5, 6, 7,
        List.replicate 364 8⟩).take 4 = u32le 1 ∧
      ((serialize ⟨1, 2, List.replicate 636 3, 4, 5, 6, 7,
        List.replicate 364 8⟩).drop 4).take 4 = u32le 2 ∧
      ((serialize ⟨1, 2, List.replicate 636 3, 4, 5, 6, 7,
        List.replicate 364 8⟩).drop 8).take 636 = List.replicate 636 3 ∧
      ((serialize ⟨1, 2, List.replicate 636 3, 4, 5, 6, 7,
        List.replicate 364 8⟩).drop 644).take 4 = u32le 4 ∧
      ((serialize ⟨1, 2, List.replicate 636 3, 4, 5, 6, 7,
        List.replicate 364 8⟩).drop 648).take 4 = u32le 5 ∧
      ((serialize ⟨1, 2, List.replicate 636 3, 4, 5, 6, 7,
        List.replicate 364 8⟩).drop 652).take 4 = u32le 6 ∧
      ((serialize ⟨1, 2, List.replicate 636 3, 4, 5, 6, 7,
        List.replicate 364 8⟩).drop 656).take 4 = u32le 7 ∧
      (serialize ⟨1, 2, List.replicate 636 3, 4, 5, 6, 7,
        List.replicate 364 8⟩).drop 660 = List.replicate 364 8) :=
  ⟨by simp, by simp,
    claim_C3_fixed_layout ⟨1, 2, List.replicate 636 3, 4, 5, 6, 7,
      List.replicate 364 8⟩ (by simp) (by simp)⟩

/-- C1: for every input file whose payload is within the size limit,
`write_spl_hdr` succeeds and produces the output file
`<inputPath>.normal.out` whose content is exactly `serialize header`
followed by the unmodified payload, where the header has `sofs = 0x240`,
`res1 = 0x400`, zeroed reserved arrays, `vers` and `bofs` from the
arguments, `fsiz` the payload length and `crcs` its CRC-32/ISO-HDLC. -/
theorem claim_C1_create_output (conf : HeaderConf)
    (fs : List (String × List Nat)) (payload : List Nat)
    (hlook : fsLookup fs conf.name = some payload)
    (hlen : payload.length ≤ 180049) :
    (write_spl_hdr conf fs).1 = none ∧
    fsLookup (write_spl_hdr conf fs).2 (conf.name ++ ".normal.out") =
      some (serialize { sofs := 0x240, bofs := conf.bofs,
                        zro2 := List.replicate 636 0, vers := conf.vers,
                        fsiz := payload.length, res1 := 0x400,
                        crcs := crc32 payload,
                        zro3 := List.replicate 364 0 } ++ payload) := by
  have hmod : payload.length % 2 ^ 32 = payload.length :=
    Nat.mod_eq_of_lt (by omega)
  simp only [write_spl_hdr, hlook, maxSize, hmod, splHdrNew]
  rw [if_neg (by omega)]
  exact ⟨rfl, by rw [fsLookup_fsSet_self]⟩

theorem claim_C1_create_output_witness :
    fsLookup [("spl.bin", [1, 2, 3])] "spl.bin" = some [1, 2, 3] ∧
    ([1, 2, 3] : List Nat).length ≤ 180049 ∧
    ([1, 2, 3] : List Nat).length = 3 ∧
    crc32 [1, 2, 3] = 0x55BC801D ∧
    ((write_spl_hdr ⟨"spl.bin", 0x01010101, 0x200000⟩
        [("spl.bin", [1, 2, 3])]).1 = none ∧
      fsLookup (write_spl_hdr ⟨"spl.bin", 0x01010101, 0x200000⟩
          [("spl.bin", [1, 2, 3])]).2 ("spl.bin" ++ ".normal.out") =
        some (serialize { sofs := 0x240, bofs := 0x200000,
                          zro2 := List.replicate 636 0, vers := 0x01010101,
                          fsiz := ([1, 2, 3] : List Nat).length, res1 := 0x400,
                          crcs := crc32 [1, 2, 3],
                          zro3 := List.replicate 364 0 } ++ [1, 2, 3])) :=
  ⟨rfl, by decide, by decide, by decide,
    claim_C1_create_output ⟨"spl.bin", 0x01010101, 0x200000⟩ _ _ rfl (by decide)⟩

/-- C4 counterexample: the claim "fails exactly when the payload length
exceeds 180049" is false — a payload of `2^32` bytes exceeds 180049, yet
`write_spl_hdr` succeeds, because the length is compared only after
truncation to `u32` (`metadata.len() as u32`). -/
theorem claim_C4_counterexample :
    180049 < 2 ^ 32 ∧
    (List.replicate (2 ^ 32) (0 : Nat)).length = 2 ^ 32 ∧
    (write_spl_hdr ⟨"big", 0x01010101, 0x200000⟩
        [("big", List.replicate (2 ^ 32) 0)]).1 = none := by
  refine ⟨by norm_num, by rw [List.length_replicate], ?_⟩
  have h1 : fsLookup [("big", List.replicate (2 ^ 32) 0)] "big" =
      some (List.replicate (2 ^ 32) 0) := rfl
  simp only [write_spl_hdr, h1, List.length_replicate, maxSize]
  rw [if_neg (by norm_num)]

/-- C4 amended: `write_spl_hdr` fails with the payload-too-large panic
exactly when the payload length *truncated to `u32`* exceeds 180049
(`181072 - 1024 + 1`); in particular a payload of exactly 180049 bytes
succeeds and one of 180050 bytes fails, and the failure is an explicit
error, not silent truncation. -/
theorem claim_C4_amended (conf : HeaderConf) (fs : List (String × List Nat))
    (payload : List Nat) (hlook : fsLookup fs conf.name = some payload) :
    (write_spl_hdr conf fs).1 =
      if 180049 < payload.length % 2 ^ 32 then
        some (.payloadTooLarge (payload.length % 2 ^ 32) 180049)
      else none := by
  have hmx : maxSize = 180049 := rfl
  simp only [write_spl_hdr, hlook, hmx]
  split <;> rfl

theorem claim_C4_amended_witness :
    fsLookup [("spl.bin", List.replicate 180050 (0 : Nat))] "spl.bin" =
      some (List.replicate 180050 0) ∧
    (write_spl_hdr ⟨"spl.bin", 0x01010101, 0x200000⟩
        [("spl.bin", List.replicate 180050 0)]).1 =
      (if 180049 < (List.replicate 180050 (0 : Nat)).length % 2 ^ 32 then
        some (.payloadTooLarge
          ((List.replicate 180050 (0 : Nat)).length % 2 ^ 32) 180049)
      else none) :=
  ⟨rfl, claim_C4_amended ⟨"spl.bin", 0x01010101, 0x200000⟩ _ _ rfl⟩

/-- Either `write_spl_hdr` leaves the filesystem unchanged, or it
succeeded: every abort path returns before any file is created. -/
theorem write_spl_hdr_snd (conf : HeaderConf) (fs : List (String × List Nat)) :
    (write_spl_hdr conf fs).2 = fs ∨ (write_spl_hdr conf fs).1 = none := by
  unfold write_spl_hdr
  cases fsLookup fs conf.name with
  | none => exact .inl rfl
  | some payload =>
    dsimp only
    split
    · exact .inl rfl
    · exact .inr rfl

/-- C9: when `write_spl_hdr` fails with the payload-too-large panic, the
filesystem is unchanged: the size check precedes `File::create`, so no
`<inputPath>.normal.out` file is produced and the input file is intact. -/
theorem claim_C9_no_output_on_error (conf : HeaderConf)
    (fs : List (String × List Nat)) (a m : Nat)
    (he : (write_spl_hdr conf fs).1 = some (.payloadTooLarge a m)) :
    (write_spl_hdr conf fs).2 = fs ∧
    fsLookup (write_spl_hdr conf fs).2 (conf.name ++ ".normal.out") =
      fsLookup fs (conf.name ++ ".normal.out") ∧
    fsLookup (write_spl_hdr conf fs).2 conf.name = fsLookup fs conf.name := by
  have h2 : (write_spl_hdr conf fs).2 = fs := by
    rcases write_spl_hdr_snd conf fs with h | h
    · exact h
    · cases he.symm.trans h
  exact ⟨h2, by rw [h2], by rw [h2]⟩

theorem claim_C9_no_output_on_error_witness :
    (write_spl_hdr ⟨"spl.bin", 0x01010101, 0x200000⟩
        [("spl.bin", List.replicate 180050 0)]).1 =
      some (.payloadTooLarge 180050 180049) ∧
    ((write_spl_hdr ⟨"spl.bin", 0x01010101, 0x200000⟩
        [("spl.bin", List.replicate 180050 0)]).2 =
      [("spl.bin", List.replicate 180050 0)] ∧
     fsLookup (write_spl_hdr ⟨"spl.bin", 0x01010101, 0x200000⟩
        [("spl.bin", List.replicate 180050 0)]).2
        ("spl.bin" ++ ".normal.out") =
      fsLookup [("spl.bin", List.replicate 180050 0)]
        ("spl.bin" ++ ".normal.out") ∧
     fsLookup (write_spl_hdr ⟨"spl.bin", 0x01010101, 0x200000⟩
        [("spl.bin", List.replicate 180050 0)]).2 "spl.bin" =
      fsLookup [("spl.bin", List.replicate 180050 0)] "spl.bin") := by
  have he : (write_spl_hdr ⟨"spl.bin", 0x01010101, 0x200000⟩
      [("spl.bin", List.replicate 180050 0)]).1 =
      some (.payloadTooLarge 180050 180049) := by
    have h1 : fsLookup [("spl.bin", List.replicate 180050 (0 : Nat))]
        "spl.bin" = some (List.replicate 180050 0) := rfl
    simp only [write_spl_hdr, h1, List.length_replicate, maxSize]
    rw [if_pos (by norm_num)]
    norm_num
  exact ⟨he, claim_C9_no_output_on_error _ _ _ _ he⟩

/-- C10: the size limit is enforced only modulo `2^32`: for every input
whose length `L` satisfies `L % 2^32 ≤ 180049` even though `L > 180049`,
the check passes, the header records `fsiz = L % 2^32`, and the entire
`L`-byte payload is still appended unmodified to the output file. -/
theorem claim_C10_mod_2_32 (conf : HeaderConf)
    (fs : List (String × List Nat)) (payload : List Nat)
    (hlook : fsLookup fs conf.name = some payload)
    (hmod : payload.length % 2 ^ 32 ≤ 180049)
    (_hbig : 180049 < payload.length) :
    (write_spl_hdr conf fs).1 = none ∧
    fsLookup (write_spl_hdr conf fs).2 (conf.name ++ ".normal.out") =
      some (serialize { sofs := 0x240, bofs := conf.bofs,
                        zro2 := List.replicate 636 0, vers := conf.vers,
                        fsiz := payload.length % 2 ^ 32, res1 := 0x400,
                        crcs := crc32 payload,
                        zro3 := List.replicate 364 0 } ++ payload) := by
  simp only [write_spl_hdr, hlook, maxSize, splHdrNew]
  rw [if_neg (by omega)]
  exact ⟨rfl, by rw [fsLookup_fsSet_self]⟩

theorem claim_C10_mod_2_32_witness :
    fsLookup [("huge.bin", List.replicate (2 ^ 32) (0 : Nat))] "huge.bin" =
      some (List.replicate (2 ^ 32) 0) ∧
    (List.replicate (2 ^ 32) (0 : Nat)).length % 2 ^ 32 ≤ 180049 ∧
    180049 < (List.replicate (2 ^ 32) (0 : Nat)).length ∧
    ((write_spl_hdr ⟨"huge.bin", 0x01010101, 0x200000⟩
        [("huge.bin", List.replicate (2 ^ 32) 0)]).1 = none ∧
      fsLookup (write_spl_hdr ⟨"huge.bin", 0x01010101, 0x200000⟩
          [("huge.bin", List.replicate (2 ^ 32) 0)]).2
          ("huge.bin" ++ ".normal.out") =
        some (serialize { sofs := 0x240, bofs := 0x200000,
                          zro2 := List.replicate 636 0, vers := 0x01010101,
                          fsiz := (List.replicate (2 ^ 32) (0 : Nat)).length % 2 ^ 32,
                          res1 := 0x400,
                          crcs := crc32 (List.replicate (2 ^ 32) 0),
                          zro3 := List.replicate 364 0 } ++
          List.replicate (2 ^ 32) 0)) :=
  ⟨rfl, by rw [List.length_replicate]; norm_num,
    by rw [List.length_replicate]; norm_num,
    claim_C10_mod_2_32 ⟨"huge.bin", 0x01010101, 0x200000⟩ _ _ rfl
      (by rw [List.length_replicate]; norm_num)
      (by rw [List.length_replicate]; norm_num)⟩

/-- C5: for every target file and every backup-offset argument,
`write_img_hdr` sets the header's `crcs` field to the sentinel
`0x5A5A5A5A` regardless of its previous value, and overwrites the
header's `bofs` field with the argument if and only if the argument is
nonzero — when it is 0 the stored `bofs` is preserved exactly. -/
theorem claim_C5_patch_fields (a : Nat) (content : List Nat)
    (ha : a < 2 ^ 32) (hb : ∀ b ∈ content, b < 256) :
    ∃ h out, deserialize (readInto1024 content) = some h ∧
      write_img_hdr a content = some out ∧
      deserialize out =
        some { h with bofs := (if a = 0 then h.bofs else a),
                      crcs := CRC_FAILED } := by
  obtain ⟨h, he⟩ := deserialize_total (readInto1024 content)
    (by rw [readInto1024_length])
  have hwf := deserialize_wf _ _ (readInto1024_bytes _ hb) he
  have hbv : (if a = 0 then h.bofs else a) < 2 ^ 32 := by
    split
    · exact hwf.2.1
    · exact ha
  have hwf' : hdrWF { h with bofs := (if a = 0 then h.bofs else a),
                             crcs := CRC_FAILED } :=
    hdrWF_update h hwf _ _ hbv (by norm_num [CRC_FAILED])
  exact ⟨h, _, he, write_img_hdr_eq a content h he,
    deserialize_serialize_append _ _ hwf'⟩

theorem claim_C5_patch_fields_witness :
    (0x300000 : Nat) < 2 ^ 32 ∧
    (∀ b ∈ List.replicate 1030 (7 : Nat), b < 256) ∧
    (∃ h out, deserialize (readInto1024 (List.replicate 1030 7)) = some h ∧
      write_img_hdr 0x300000 (List.replicate 1030 7) = some out ∧
      deserialize out =
        some { h with bofs := (if (0x300000 : Nat) = 0 then h.bofs
                               else 0x300000),
                      crcs := CRC_FAILED }) :=
  ⟨by norm_num,
    fun b hb => by rw [List.eq_of_mem_replicate hb]; norm_num,
    claim_C5_patch_fields 0x300000 (List.replicate 1030 7) (by norm_num)
      (fun b hb => by rw [List.eq_of_mem_replicate hb]; norm_num)⟩

/-- C6: `write_img_hdr` overwrites only the first 1024 bytes: for every
target file of at least 1024 bytes, every byte at offset ≥ 1024 is
identical before and after, and within the rewritten header every field
other than `bofs` and `crcs` keeps its prior stored value. -/
theorem claim_C6_frame (a : Nat) (content : List Nat)
    (hlen : 1024 ≤ content.length) (hb : ∀ b ∈ content, b < 256) :
    ∃ h out, deserialize (content.take 1024) = some h ∧
      write_img_hdr a content = some out ∧
      out = serialize { h with bofs := (if a = 0 then h.bofs else a),
                               crcs := CRC_FAILED } ++ content.drop 1024 ∧
      out.drop 1024 = content.drop 1024 := by
  have hbuf : readInto1024 content = content.take 1024 :=
    readInto1024_of_length content hlen
  obtain ⟨h, he⟩ := deserialize_total (content.take 1024)
    (by rw [List.length_take]; omega)
  have he' : deserialize (readInto1024 content) = some h := by rw [hbuf]; exact he
  have hwf := deserialize_wf _ _
    (fun b hbm => hb b (List.take_subset _ _ hbm)) he
  obtain ⟨_, _, hz2, _, _, _, _, _, hz3, _⟩ := hwf
  have hslen : (serialize { h with bofs := (if a = 0 then h.bofs else a),
                                   crcs := CRC_FAILED }).length = 1024 :=
    serialize_length _ hz2 hz3
  exact ⟨h, _, he, write_img_hdr_eq a content h he', rfl,
    List.drop_left' hslen⟩

theorem claim_C6_frame_witness :
    1024 ≤ (List.replicate 2000 (5 : Nat)).length ∧
    (∀ b ∈ List.replicate 2000 (5 : Nat), b < 256) ∧
    (∃ h out, deserialize ((List.replicate 2000 (5 : Nat)).take 1024) = some h ∧
      write_img_hdr 0x300000 (List.replicate 2000 5) = some out ∧
      out = serialize { h with bofs := (if (0x300000 : Nat) = 0 then h.bofs
                                        else 0x300000),
                               crcs := CRC_FAILED } ++
        (List.replicate 2000 (5 : Nat)).drop 1024 ∧
      out.drop 1024 = (List.replicate 2000 (5 : Nat)).drop 1024) :=
  ⟨by rw [List.length_replicate]; norm_num,
    fun b hb => by rw [List.eq_of_mem_replicate hb]; norm_num,
    claim_C6_frame 0x300000 (List.replicate 2000 5)
      (by rw [List.length_replicate]; norm_num)
      (fun b hb => by rw [List.eq_of_mem_replicate hb]; norm_num)⟩

/-- C7 (behaviour of the code at the claim's failing input): a target
file holding only the 3 bytes `[1, 2, 3]` — fewer than the 1024 a header
needs — does NOT make `write_img_hdr` fail: the ignored short `read`
leaves the zero tail of the buffer in place, deserialisation succeeds,
and the file is rewritten as a full 1024-byte patched header, contrary
to the claimed `TruncatedFile` failure without mutation. -/
theorem claim_C7_short_file_patched :
    (write_img_hdr 0x300000 [1, 2, 3]).isSome = true ∧
    (write_img_hdr 0x300000 [1, 2, 3]).getD [] ≠ [1, 2, 3] ∧
    ((write_img_hdr 0x300000 [1, 2, 3]).getD []).length = 1024 := by
  decide

/-- C8: `write_img_hdr` is idempotent — applying it twice with the same
backup-offset argument yields the same final file content as once. -/
theorem claim_C8_idempotent (a : Nat) (content : List Nat)
    (ha : a < 2 ^ 32) (hb : ∀ b ∈ content, b < 256) :
    (write_img_hdr a content).bind (write_img_hdr a) =
      write_img_hdr a content := by
  obtain ⟨h, he⟩ := deserialize_total (readInto1024 content)
    (by rw [readInto1024_length])
  have hwf := deserialize_wf _ _ (readInto1024_bytes _ hb) he
  have hbv : (if a = 0 then h.bofs else a) < 2 ^ 32 := by
    split
    · exact hwf.2.1
    · exact ha
  have hwf' : hdrWF { h with bofs := (if a = 0 then h.bofs else a),
                             crcs := CRC_FAILED } :=
    hdrWF_update h hwf _ _ hbv (by norm_num [CRC_FAILED])
  have hslen : (serialize { h with bofs := (if a = 0 then h.bofs else a),
                                   crcs := CRC_FAILED }).length = 1024 :=
    serialize_length _ hwf'.2.2.1 hwf'.2.2.2.2.2.2.2.2.1
  rw [write_img_hdr_eq a content h he, Option.some_bind]
  have hbuf2 : readInto1024
      (serialize { h with bofs := (if a = 0 then h.bofs else a),
                          crcs := CRC_FAILED } ++ content.drop 1024) =
      serialize { h with bofs := (if a = 0 then h.bofs else a),
                         crcs := CRC_FAILED } := by
    rw [readInto1024_of_length _ (by rw [List.length_append, hslen]; omega)]
    exact List.take_left' hslen
  have he2 : deserialize (readInto1024
      (serialize { h with bofs := (if a = 0 then h.bofs else a),
                          crcs := CRC_FAILED } ++ content.drop 1024)) =
      some { h with bofs := (if a = 0 then h.bofs else a),
                    crcs := CRC_FAILED } := by
    rw [hbuf2]
    have := deserialize_serialize_append _ [] hwf'
    simpa using this
  rw [write_img_hdr_eq a _ _ he2, List.drop_left' hslen]
  by_cases h0 : a = 0 <;> simp [h0]

theorem claim_C8_idempotent_witness :
    (0x300000 : Nat) < 2 ^ 32 ∧
    (∀ b ∈ List.replicate 1030 (7 : Nat), b < 256) ∧
    (write_img_hdr 0x300000 (List.replicate 1030 7)).bind
        (write_img_hdr 0x300000) =
      write_img_hdr 0x300000 (List.replicate 1030 7) :=
  ⟨by norm_num,
    fun b hb => by rw [List.eq_of_mem_replicate hb]; norm_num,
    claim_C8_idempotent 0x300000 (List.replicate 1030 7) (by norm_num)
      (fun b hb => by rw [List.eq_of_mem_replicate hb]; norm_num)⟩
